import Mathlib

/-!
Verification of `extract_marks.py` (FAIS Minus): a shallow embedding of the
script as pure Lean functions over an in-memory table, with theorems about
the grade bands, the override applier, the withdrawal filter, the cohort
reporter, the interim substitution and the per-course CSV export.

The pandas DataFrame `all_marks` is modelled as a `List Row`; console output
of the reporter is modelled as the data it prints; file output is modelled as
the list of (filename, rows-of-cells) pairs the script writes.  Fatal runtime
errors (KeyError on a missing course config, the astype failure on a missing
value, the IndexError on an empty discovery list) are modelled with `Option`.
-/

/-- A cell of the positionally-addressed mark column.  pandas lets the column
hold an integer, a string (after the interim-code substitution at lines
177-180 of the script), or a missing value `NaN` (introduced only when an
`.at` assignment with a fresh index label enlarges the frame). -/
inductive MarkVal
  | int (n : Int)
  | str (s : String)
  | nan
deriving DecidableEq

/-- One row of `all_marks`, after the load block (script lines 80-84): the
row key `uid`, plus the columns the script touches.  `Option`/`MarkVal.nan`
model pandas missing values, which occur only on rows created by `.at`
enlargement.  The `grade` column is created at line 116; rows carry `""`
until then. -/
structure Row where
  uid : String
  studentNumber : Option Int
  mark : MarkVal
  firstName : Option String
  lastName : Option String
  courseCode : Option String
  grade : String
deriving DecidableEq

/-- Loading one source row (script lines 81-83): the course code is the
first 8 characters of the Enrol Reason field, and `uid` is `"u"` followed by
the student number. -/
def loadRow (enrolReason : String) (number : Int) (mark : Int)
    (first last : String) : Row :=
  { uid := "u" ++ toString number
    studentNumber := some number
    mark := MarkVal.int mark
    firstName := some first
    lastName := some last
    courseCode := some (enrolReason.take 8)
    grade := "" }

/-- The process-wide zero-handling flag (script line 72), off by default.
The functions below take the flag as an explicit argument. -/
def set_0_ncn : Bool := false

/-- `generate_grade` (script lines 94-110), with the global flag made an
explicit argument. -/
def generate_grade (set0ncn : Bool) (mark : Int) : String :=
  if mark = 0 then
    if set0ncn then "NCN" else "N"
  else if mark ≤ 44 then "N"
  else if mark ≤ 49 then "PX"
  else if mark ≤ 59 then "P"
  else if mark ≤ 69 then "CR"
  else if mark ≤ 79 then "D"
  else "HD"

/-- Fallible map over a list: `none` as soon as `f` fails on an element.
Models a pandas column operation that raises on some cell. -/
def mapOpt (f : α → Option β) : List α → Option (List β)
  | [] => some []
  | a :: l =>
    match f a, mapOpt f l with
    | some b, some bs => some (b :: bs)
    | _, _ => none

/-- Grade derivation for one row (script line 116): `generate_grade` applied
to the mark cell.  A non-integer cell raises in Python (comparison of a
non-number), modelled as `none`; at this point of the run every mark cell is
an integer. -/
def deriveGrade (set0ncn : Bool) (r : Row) : Option Row :=
  match r.mark with
  | MarkVal.int n => some { r with grade := generate_grade set0ncn n }
  | _ => none

/-- Grade derivation over the whole table (script line 116). -/
def deriveGrades (set0ncn : Bool) (t : List Row) : Option (List Row) :=
  mapOpt (deriveGrade set0ncn) t

/-- The row that pandas creates when `all_marks.at[uid, "grade"] = g` is
given an index label absent from the frame: every other column is filled
with a missing value. -/
def enlargedRow (uid g : String) : Row :=
  { uid := uid
    studentNumber := none
    mark := MarkVal.nan
    firstName := none
    lastName := none
    courseCode := none
    grade := g }

/-- One override assignment `all_marks.at[uid, "grade"] = g` (script line
123).  If the label is present, the grade cell of the matching row is
overwritten; if it is absent, pandas sets with enlargement and appends a
fresh row whose other cells are missing. -/
def applyOverrideEntry (t : List Row) (uid g : String) : List Row :=
  if t.any (fun r => r.uid == uid) then
    t.map (fun r => if r.uid == uid then { r with grade := g } else r)
  else
    t ++ [enlargedRow uid g]

/-- The inner override loop for one course (script lines 121-123): the
`grades` mapping of the config entry, `none` when the YAML key is empty,
applied entry by entry. -/
def applySpecialGrades (t : List Row) (grades : Option (List (String × String))) :
    List Row :=
  match grades with
  | none => t
  | some gs => gs.foldl (fun acc p => applyOverrideEntry acc p.1 p.2) t

/-- One entry of `grade_config.yml` (script docstring lines 45-63). -/
structure CourseConfig where
  ctype : String
  term : Nat
  subject : String
  catalogue : Nat
  classId : Nat
  grades : Option (List (String × String))
deriving DecidableEq

/-- `config[c]`: lookup of a course code in the config document; `none`
models the fatal KeyError on a course missing from the configuration. -/
def lookupConfig (config : List (String × CourseConfig)) (c : String) :
    Option CourseConfig :=
  (config.find? (fun p => p.1 == c)).map (fun p => p.2)

/-- First-occurrence deduplication, as `pandas.Series.unique` (script
line 85). -/
def uniqueAux (seen : List String) : List String → List String
  | [] => []
  | x :: xs =>
    if seen.contains x then uniqueAux seen xs else x :: uniqueAux (x :: seen) xs

/-- `courses = list(all_marks.course_code.unique())` (script line 85). -/
def uniqueCourses (t : List Row) : List String :=
  uniqueAux [] (t.filterMap (fun r => r.courseCode))

/-- The outer override loop (script lines 119-123): for each course in
`courses`, look up its config (fatal if absent) and apply its `grades`
mapping. -/
def applyAllOverrides (config : List (String × CourseConfig)) :
    List String → List Row → Option (List Row)
  | [], t => some t
  | c :: cs, t =>
    match lookupConfig config c with
    | none => none
    | some cc => applyAllOverrides config cs (applySpecialGrades t cc.grades)

/-- The `astype(int)` step for one row (script lines 126-127): fails on a
missing student number or a non-integer mark cell (as pandas `astype(int)`
fails on `NaN`); at this point of the run a mark cell is an integer unless
override enlargement created the row. -/
def astypeIntRow (r : Row) : Option Row :=
  match r.studentNumber, r.mark with
  | some _, MarkVal.int _ => some r
  | _, _ => none

/-- The `astype(int)` step over the whole table (script lines 126-127). -/
def astypeIntCols (t : List Row) : Option (List Row) :=
  mapOpt astypeIntRow t

/-- The withdrawal filter (script lines 152-153): two successive boolean
masks, dropping the `WD` rows and then the `WN` rows. -/
def withdrawFilter (t : List Row) : List Row :=
  (t.filter (fun r => r.grade != "WD")).filter (fun r => r.grade != "WN")

/-- The fixed, ordered grade label list of `print_value_counts` (script
line 144). -/
def gradeOrderList : List String :=
  ["HD", "D", "CR", "P", "PX", "N", "NCN", "DA", "RP", "KU", "WD", "WN"]

/-- `df.grade.value_counts()[g]`: how many rows of the subset carry grade
`g` (script line 141). -/
def countGrade (df : List Row) (g : String) : Nat :=
  (df.filter (fun r => r.grade == g)).length

/-- Rounding to 2 decimal places, modelling the `:.2f` format of script
line 146 by exact rational rounding. -/
def round2 (q : ℚ) : ℚ :=
  ((round (q * 100) : ℤ) : ℚ) / 100

/-- `print_value_counts` (script lines 140-148), modelled as the data it
prints: one `(grade, count, rounded percentage)` entry per label of the
fixed ordered list, where a label with no occurrences is skipped (the
KeyError on `counts[grade]` is caught and the loop continues). -/
def value_counts_report (df : List Row) : List (String × Nat × ℚ) :=
  gradeOrderList.filterMap (fun g =>
    if countGrade df g = 0 then none
    else some (g, countGrade df g,
      round2 ((countGrade df g : ℚ) * 100 / (df.length : ℚ))))

/-- The data printed by one `print_stats` call (script lines 130-138): the
cohort name, the enrolment count `len(df.index)`, the mark cells handed to
`describe()`, and the grade distribution. -/
structure StatsReport where
  name : String
  enrolment : Nat
  markCells : List MarkVal
  gradeCounts : List (String × Nat × ℚ)
deriving DecidableEq

/-- `print_stats(name, df)` (script lines 130-138), as the data it prints. -/
def print_stats_data (name : String) (df : List Row) : StatsReport :=
  { name := name
    enrolment := df.length
    markCells := df.map (fun r => r.mark)
    gradeCounts := value_counts_report df }

/-- The working table at the moment the stats block runs (script line 156):
grades derived (line 116), overrides applied (lines 119-123), the
`astype(int)` updates (lines 126-127), and the withdrawal filter (lines
152-153) — the filter precedes the stats block in the script. -/
def tableAtStats (set0ncn : Bool) (config : List (String × CourseConfig))
    (t0 : List Row) : Option (List Row) :=
  match deriveGrades set0ncn t0 with
  | none => none
  | some t1 =>
    match applyAllOverrides config (uniqueCourses t0) t1 with
    | none => none
    | some t2 =>
      match astypeIntCols t2 with
      | none => none
      | some t3 => some (withdrawFilter t3)

/-- `all_marks[all_marks.course_code == c]` (script lines 161 and 184). -/
def courseSubset (t : List Row) (c : String) : List Row :=
  t.filter (fun r => r.courseCode == some c)

/-- The stats block (script lines 158-161): one report for the full table
and one per course code, all over the table as it stands after the
withdrawal filter. -/
def scriptReports (set0ncn : Bool) (config : List (String × CourseConfig))
    (t0 : List Row) : Option (List StatsReport) :=
  match tableAtStats set0ncn config t0 with
  | none => none
  | some t =>
    some (print_stats_data "All Cohorts" t ::
      (uniqueCourses t0).map (fun c => print_stats_data c (courseSubset t c)))

/-- The interim code set (script line 174). -/
def interim_codes : List String := ["DA", "PX", "RP", "KU", "NCN"]

/-- The interim substitution loop (script lines 177-180): every row whose
grade is an interim code gets the grade string copied into its mark cell. -/
def interimSubstitute (t : List Row) : List Row :=
  t.map (fun r =>
    if interim_codes.contains r.grade then { r with mark := MarkVal.str r.grade }
    else r)

/-- The output header (script line 187). -/
def header : List String :=
  ["uid", "mark", "grade", "firstname", "surname", "course"]

/-- Rendering of a student number cell for `to_csv`. -/
def cellOfOptInt : Option Int → String
  | some n => toString n
  | none => ""

/-- Rendering of a mark cell for `to_csv`. -/
def cellOfMark : MarkVal → String
  | MarkVal.int n => toString n
  | MarkVal.str s => s
  | MarkVal.nan => ""

/-- Rendering of a string cell for `to_csv`. -/
def cellOfOptStr : Option String → String
  | some s => s
  | none => ""

/-- One exported CSV row (script lines 185 and 190): the `csv_cols` column
subset in order, without the `uid` index column (`index=False`). -/
def csvRowOf (r : Row) : List String :=
  [cellOfOptInt r.studentNumber, cellOfMark r.mark, r.grade,
    cellOfOptStr r.firstName, cellOfOptStr r.lastName, cellOfOptStr r.courseCode]

/-- `sas_filename` (script line 189). -/
def sas_filename (cc : CourseConfig) : String :=
  toString cc.term ++ "-" ++ cc.subject ++ "-" ++ toString cc.catalogue ++ "-" ++
    toString cc.classId ++ ".csv"

/-- The contents of one per-course CSV file (script lines 184-190): the
fixed header, then one rendered row per row of the course subset. -/
def courseCsv (t : List Row) (c : String) : List (List String) :=
  header :: (courseSubset t c).map csvRowOf

/-- The export loop (script lines 183-191): one `(filename, contents)` pair
per course, fatal on a course missing from the configuration. -/
def exportFiles (config : List (String × CourseConfig)) :
    List String → List Row → Option (List (String × List (List String)))
  | [], _ => some []
  | c :: cs, t =>
    match lookupConfig config c with
    | none => none
    | some cc =>
      match exportFiles config cs t with
      | none => none
      | some rest => some ((sas_filename cc, courseCsv t c) :: rest)

/-- The files written by a full run (derive, overrides, astype, withdrawal
filter, interim substitution, per-course export). -/
def scriptExports (set0ncn : Bool) (config : List (String × CourseConfig))
    (t0 : List Row) : Option (List (String × List (List String))) :=
  match tableAtStats set0ncn config t0 with
  | none => none
  | some t => exportFiles config (uniqueCourses t0) (interimSubstitute t)

/-- Whether the first list of characters begins the second. -/
def charsBegin : List Char → List Char → Bool
  | [], _ => true
  | _ :: _, [] => false
  | a :: ps, b :: ss => a == b && charsBegin ps ss

/-- Whether the first list of characters occurs inside the second. -/
def charsContain (pat : List Char) : List Char → Bool
  | [] => pat.isEmpty
  | b :: ss => charsBegin pat (b :: ss) || charsContain pat ss

/-- The Python membership test `"for_SAS" in f` on a filename. -/
def hasMarker (f : String) : Bool :=
  charsContain ("for_SAS").toList f.toList

/-- `possible_sas_exports` (script line 76): the files of the directory
listing whose name contains the marker substring, in listing order. -/
def possible_sas_exports (files : List String) : List String :=
  files.filter hasMarker

/-- `possible_sas_exports[0]` (script line 80): the file the script opens;
`none` models the fatal IndexError when no file matches. -/
def openedExport (files : List String) : Option String :=
  (possible_sas_exports files).head?

/-! ### Fixtures: concrete rows and configurations used by witnesses and
counterexamples. -/

/-- The example input row of the spec: course COMP1100, mark 82, Jane Doe,
student number 1234567. -/
def janeRow : Row := loadRow "COMP1100 Continuing" 1234567 82 "Jane" "Doe"

/-- The Jane Doe row with grade HD, as it stands after derivation with the
zero flag off. -/
def hdRow : Row := { janeRow with grade := "HD" }

/-- The Jane Doe row with grade PX, used to exercise the interim
substitution. -/
def pxRow : Row := { janeRow with grade := "PX" }

/-- A COMP1100 configuration entry with a given override mapping. -/
def comp1100Config (grades : Option (List (String × String))) : CourseConfig :=
  { ctype := "UGRD"
    term := 2940
    subject := "COMP"
    catalogue := 1100
    classId := 4321
    grades := grades }

/-- A configuration document with no overrides for COMP1100. -/
def plainConfig : List (String × CourseConfig) :=
  [("COMP1100", comp1100Config none)]

/-- A configuration document overriding student u1234567 to WD. -/
def wdConfig : List (String × CourseConfig) :=
  [("COMP1100", comp1100Config (some [("u1234567", "WD")]))]

/-- An override mapping setting student u1234567 to DA. -/
def daGrades : List (String × String) := [("u1234567", "DA")]

/-! ### C3 and C10: the grade bands. -/

/-- Claim C3: for every integer mark m that is at least 0, `generate_grade`
returns exactly one label of the seven-element set, following the stated
bands (0 mapped by the zero flag, 1-44 to N, 45-49 to PX, 50-59 to P, 60-69
to CR, 70-79 to D, at least 80 to HD), and the seven bands cover the
nonnegative integers. -/
theorem generate_grade_bands (flag : Bool) (m : Int) (hm : 0 ≤ m) :
    generate_grade flag m ∈ ["HD", "D", "CR", "P", "PX", "N", "NCN"] ∧
    (m = 0 → generate_grade flag m = if flag then "NCN" else "N") ∧
    (1 ≤ m ∧ m ≤ 44 → generate_grade flag m = "N") ∧
    (45 ≤ m ∧ m ≤ 49 → generate_grade flag m = "PX") ∧
    (50 ≤ m ∧ m ≤ 59 → generate_grade flag m = "P") ∧
    (60 ≤ m ∧ m ≤ 69 → generate_grade flag m = "CR") ∧
    (70 ≤ m ∧ m ≤ 79 → generate_grade flag m = "D") ∧
    (80 ≤ m → generate_grade flag m = "HD") ∧
    (m = 0 ∨ (1 ≤ m ∧ m ≤ 44) ∨ (45 ≤ m ∧ m ≤ 49) ∨ (50 ≤ m ∧ m ≤ 59) ∨
      (60 ≤ m ∧ m ≤ 69) ∨ (70 ≤ m ∧ m ≤ 79) ∨ 80 ≤ m) := by
  refine ⟨?_, ?_, ?_, ?_, ?_, ?_, ?_, ?_, ?_⟩
  · unfold generate_grade
    split_ifs <;> simp
  · intro h
    unfold generate_grade
    split_ifs <;> first | rfl | omega
  · intro h
    unfold generate_grade
    split_ifs <;> first | rfl | omega
  · intro h
    unfold generate_grade
    split_ifs <;> first | rfl | omega
  · intro h
    unfold generate_grade
    split_ifs <;> first | rfl | omega
  · intro h
    unfold generate_grade
    split_ifs <;> first | rfl | omega
  · intro h
    unfold generate_grade
    split_ifs <;> first | rfl | omega
  · intro h
    unfold generate_grade
    split_ifs <;> first | rfl | omega
  · omega

/-- Witness for C3: the band theorem instantiated at flag off and mark 82. -/
theorem generate_grade_bands_witness :
    generate_grade false 82 ∈ ["HD", "D", "CR", "P", "PX", "N", "NCN"] ∧
    ((82 : Int) = 0 → generate_grade false 82 = if false then "NCN" else "N") ∧
    ((1 : Int) ≤ 82 ∧ (82 : Int) ≤ 44 → generate_grade false 82 = "N") ∧
    ((45 : Int) ≤ 82 ∧ (82 : Int) ≤ 49 → generate_grade false 82 = "PX") ∧
    ((50 : Int) ≤ 82 ∧ (82 : Int) ≤ 59 → generate_grade false 82 = "P") ∧
    ((60 : Int) ≤ 82 ∧ (82 : Int) ≤ 69 → generate_grade false 82 = "CR") ∧
    ((70 : Int) ≤ 82 ∧ (82 : Int) ≤ 79 → generate_grade false 82 = "D") ∧
    ((80 : Int) ≤ 82 → generate_grade false 82 = "HD") ∧
    ((82 : Int) = 0 ∨ ((1 : Int) ≤ 82 ∧ (82 : Int) ≤ 44) ∨
      ((45 : Int) ≤ 82 ∧ (82 : Int) ≤ 49) ∨ ((50 : Int) ≤ 82 ∧ (82 : Int) ≤ 59) ∨
      ((60 : Int) ≤ 82 ∧ (82 : Int) ≤ 69) ∨ ((70 : Int) ≤ 82 ∧ (82 : Int) ≤ 79) ∨
      (80 : Int) ≤ 82) :=
  generate_grade_bands false 82 (by decide)

/-- Claim C10: every negative mark falls into the same branch as the 1-44
band and yields N, for either value of the zero flag. -/
theorem generate_grade_negative (flag : Bool) (m : Int) (hm : m < 0) :
    generate_grade flag m = "N" := by
  unfold generate_grade
  split_ifs <;> first | rfl | omega

/-- Witness for C10: the negative-mark theorem at flag on and mark -5. -/
theorem generate_grade_negative_witness : generate_grade true (-5) = "N" :=
  generate_grade_negative true (-5) (by decide)

/-! ### C9: discovery of the source export file. -/

/-- Claim C9: the script opens the first file whose name contains the marker
substring, in directory-listing order; with zero matches the lookup is a
fatal index error, and with one or more matches the first match is chosen. -/
theorem export_discovery_spec (files : List String) :
    (possible_sas_exports files = [] → openedExport files = none) ∧
    (∀ f fs, possible_sas_exports files = f :: fs → openedExport files = some f) ∧
    openedExport files = files.find? hasMarker := by
  refine ⟨?_, ?_, ?_⟩
  · intro h
    simp [openedExport, h]
  · intro f fs h
    simp [openedExport, h]
  · unfold openedExport possible_sas_exports
    induction files with
    | nil => rfl
    | cons a l ih =>
        by_cases h : hasMarker a = true
        · simp [List.filter_cons, h, List.find?]
        · simp only [Bool.not_eq_true] at h
          simp [List.filter_cons, h, ih, List.find?]

/-- Witness for C9: with two matching files in the listing, the first match
is the one opened. -/
theorem export_discovery_spec_witness :
    openedExport ["notes.txt", "2024_for_SAS_a.csv", "2024_for_SAS_b.csv"] =
      some "2024_for_SAS_a.csv" :=
  (export_discovery_spec ["notes.txt", "2024_for_SAS_a.csv", "2024_for_SAS_b.csv"]).2.1
    "2024_for_SAS_a.csv" ["2024_for_SAS_b.csv"] (by decide)

/-! ### C4: the withdrawal filter. -/

/-- The two masks of the withdrawal filter amount to one filter on the
grade being neither WD nor WN. -/
theorem withdrawFilter_eq_filter (t : List Row) :
    withdrawFilter t = t.filter (fun r => !(r.grade == "WD" || r.grade == "WN")) := by
  unfold withdrawFilter
  rw [List.filter_filter]
  apply List.filter_congr
  intro r _
  cases h1 : r.grade == "WD" <;> cases h2 : r.grade == "WN" <;> simp [h1, h2, bne]

/-- Row counting for the withdrawal filter: kept rows plus WD rows plus WN
rows give back the original row count. -/
theorem withdrawFilter_length (t : List Row) :
    (withdrawFilter t).length + countGrade t "WD" + countGrade t "WN" = t.length := by
  induction t with
  | nil => rfl
  | cons r t ih =>
      unfold withdrawFilter countGrade at ih ⊢
      by_cases h1 : r.grade = "WD" <;> by_cases h2 : r.grade = "WN" <;>
        simp [List.filter_cons, h1, h2, bne, beq_iff_eq] at ih ⊢ <;> omega

/-- Claim C4: the withdrawal filter keeps exactly the rows whose grade is
neither WD nor WN, the row count drops by the number of WD rows plus the
number of WN rows, and every surviving row is a row of the input, unchanged
and in order. -/
theorem withdrawFilter_spec (t : List Row) :
    withdrawFilter t = t.filter (fun r => !(r.grade == "WD" || r.grade == "WN")) ∧
    (withdrawFilter t).length = t.length - countGrade t "WD" - countGrade t "WN" ∧
    (withdrawFilter t).Sublist t := by
  refine ⟨withdrawFilter_eq_filter t, ?_, ?_⟩
  · have h := withdrawFilter_length t
    omega
  · rw [withdrawFilter_eq_filter]
    exact List.filter_sublist t

/-! ### C2: an override naming an absent student id. -/

/-- A fallible map fails on a list ending in an element the function
rejects. -/
theorem mapOpt_append_none (f : α → Option β) (l : List α) (x : α)
    (hx : f x = none) : mapOpt f (l ++ [x]) = none := by
  induction l with
  | nil =>
      show (match f x, mapOpt f ([] : List α) with
        | some b, some bs => some (b :: bs)
        | _, _ => none) = none
      rw [hx]
  | cons a l ih =>
      show (match f a, mapOpt f (l ++ [x]) with
        | some b, some bs => some (b :: bs)
        | _, _ => none) = none
      rw [ih]
      cases f a <;> rfl

/-- Counterexample to claim C2 as stated: assigning an override grade under
a uid absent from the table does not leave the table unchanged. -/
theorem override_absent_uid_counterexample :
    applyOverrideEntry [hdRow] "u9999999" "DA" ≠ [hdRow] := by
  decide

/-- Claim C2 (amended): an override entry whose uid is absent from the table
appends exactly one fresh row (carrying the override grade and missing
values in every other column) and leaves every existing row unchanged; no
error is raised at this step, but the subsequent `astype(int)` step fails
on the fresh row. -/
theorem override_absent_uid_enlarges (t : List Row) (uid g : String)
    (h : ∀ r ∈ t, r.uid ≠ uid) :
    applyOverrideEntry t uid g = t ++ [enlargedRow uid g] ∧
    astypeIntCols (applyOverrideEntry t uid g) = none := by
  have hany : t.any (fun r => r.uid == uid) = false := by
    rw [List.any_eq_false]
    intro r hr
    simpa using h r hr
  have happ : applyOverrideEntry t uid g = t ++ [enlargedRow uid g] := by
    unfold applyOverrideEntry
    rw [hany]
    simp
  refine ⟨happ, ?_⟩
  rw [happ]
  exact mapOpt_append_none astypeIntRow t (enlargedRow uid g) rfl

/-- Witness for C2 (amended): the enlargement theorem at the one-row table
and a misspelt uid. -/
theorem override_absent_uid_enlarges_witness :
    applyOverrideEntry [hdRow] "u9999999" "DA" = [hdRow] ++ [enlargedRow "u9999999" "DA"] ∧
    astypeIntCols (applyOverrideEntry [hdRow] "u9999999" "DA") = none :=
  override_absent_uid_enlarges [hdRow] "u9999999" "DA" (by decide)

/-! ### C6: override exactness and idempotence. -/

/-- After one override assignment for `uid`, every row keyed `uid` carries
the assigned grade. -/
theorem applyOverrideEntry_sets (t : List Row) (uid g : String) :
    ∀ r ∈ applyOverrideEntry t uid g, r.uid = uid → r.grade = g := by
  intro r hr hru
  unfold applyOverrideEntry at hr
  by_cases hany : t.any (fun r => r.uid == uid) = true
  · rw [if_pos hany] at hr
    rcases List.mem_map.1 hr with ⟨r0, hr0, hmap⟩
    by_cases h0 : r0.uid = uid
    · rw [if_pos (by simpa using h0)] at hmap
      rw [← hmap]
    · rw [if_neg (by simpa using h0)] at hmap
      rw [← hmap] at hru
      exact absurd hru h0
  · rw [if_neg hany] at hr
    have hany2 : ∀ x ∈ t, ¬ x.uid = uid := by simpa using hany
    rcases List.mem_append.1 hr with hr1 | hr1
    · exact absurd hru (hany2 r hr1)
    · rw [List.mem_singleton.1 hr1]
      rfl

/-- An override assignment for a different uid does not disturb the grades
of the rows keyed `uid`. -/
theorem applyOverrideEntry_preserves (t : List Row) (uid g uid2 g2 : String)
    (hne : uid2 ≠ uid) (h : ∀ r ∈ t, r.uid = uid → r.grade = g) :
    ∀ r ∈ applyOverrideEntry t uid2 g2, r.uid = uid → r.grade = g := by
  intro r hr hru
  unfold applyOverrideEntry at hr
  by_cases hany : t.any (fun r => r.uid == uid2) = true
  · rw [if_pos hany] at hr
    rcases List.mem_map.1 hr with ⟨r0, hr0, hmap⟩
    by_cases h0 : r0.uid = uid2
    · rw [if_pos (by simpa using h0)] at hmap
      rw [← hmap] at hru
      exact absurd (hru ▸ h0) (by simp_all)
    · rw [if_neg (by simpa using h0)] at hmap
      rw [← hmap]
      rw [← hmap] at hru
      exact h r0 hr0 hru
  · rw [if_neg hany] at hr
    rcases List.mem_append.1 hr with hr1 | hr1
    · exact h r hr1 hru
    · rw [List.mem_singleton.1 hr1] at hru
      exact absurd hru hne

/-- One override assignment leaves a row keyed `uid` in the table (it either
rewrites the grade of an existing row or appends the enlarged row). -/
theorem applyOverrideEntry_mem (t : List Row) (uid g : String) :
    ∃ r ∈ applyOverrideEntry t uid g, r.uid = uid := by
  unfold applyOverrideEntry
  by_cases hany : t.any (fun r => r.uid == uid) = true
  · rw [if_pos hany]
    rcases List.any_eq_true.1 hany with ⟨r0, hr0, hr0u⟩
    refine ⟨if r0.uid == uid then { r0 with grade := g } else r0,
      List.mem_map.2 ⟨r0, hr0, rfl⟩, ?_⟩
    rw [if_pos hr0u]
    simpa using hr0u
  · rw [if_neg hany]
    exact ⟨enlargedRow uid g, List.mem_append_right _ (List.mem_singleton.2 rfl), rfl⟩

/-- An override assignment never removes the rows keyed `uid`: if one is
present before, one is present after, whatever uid the assignment names. -/
theorem applyOverrideEntry_mem_preserved (t : List Row) (uid g uid2 g2 : String)
    (h : ∃ r ∈ t, r.uid = uid) :
    ∃ r ∈ applyOverrideEntry t uid2 g2, r.uid = uid := by
  rcases h with ⟨r0, hr0, hr0u⟩
  unfold applyOverrideEntry
  by_cases hany : t.any (fun r => r.uid == uid2) = true
  · rw [if_pos hany]
    refine ⟨if r0.uid == uid2 then { r0 with grade := g2 } else r0,
      List.mem_map.2 ⟨r0, hr0, rfl⟩, ?_⟩
    by_cases h0 : r0.uid = uid2
    · rw [if_pos (by simpa using h0)]
      exact hr0u
    · rw [if_neg (by simpa using h0)]
      exact hr0u
  · rw [if_neg hany]
    exact ⟨r0, List.mem_append_left _ hr0, hr0u⟩

/-- Folding the override entries of a mapping whose keys all differ from
`uid` does not disturb the grades of the rows keyed `uid`. -/
theorem foldl_overrides_preserve (gs : List (String × String)) (t : List Row)
    (uid g : String) (hk : ∀ p ∈ gs, p.1 ≠ uid)
    (h : ∀ r ∈ t, r.uid = uid → r.grade = g) :
    ∀ r ∈ gs.foldl (fun acc p => applyOverrideEntry acc p.1 p.2) t,
      r.uid = uid → r.grade = g := by
  induction gs generalizing t with
  | nil => exact h
  | cons p gs ih =>
      rw [List.foldl_cons]
      exact ih (applyOverrideEntry t p.1 p.2)
        (fun q hq => hk q (List.mem_cons_of_mem p hq))
        (applyOverrideEntry_preserves t uid g p.1 p.2 (hk p (List.mem_cons_self p gs)) h)

/-- Folding override entries never removes the rows keyed `uid`. -/
theorem foldl_overrides_mem (gs : List (String × String)) (t : List Row)
    (uid : String) (h : ∃ r ∈ t, r.uid = uid) :
    ∃ r ∈ gs.foldl (fun acc p => applyOverrideEntry acc p.1 p.2) t, r.uid = uid := by
  induction gs generalizing t with
  | nil => exact h
  | cons p gs ih =>
      rw [List.foldl_cons]
      exact ih (applyOverrideEntry t p.1 p.2)
        (applyOverrideEntry_mem_preserved t uid p.2 p.1 p.2 h)

/-- Applying a non-empty mapping is the fold of its entries. -/
theorem applySpecialGrades_some (t : List Row) (gs : List (String × String)) :
    applySpecialGrades t (some gs) =
      gs.foldl (fun acc p => applyOverrideEntry acc p.1 p.2) t := rfl

/-- After applying a mapping with pairwise-distinct keys, every row keyed by
a mapping entry carries the grade of that entry. -/
theorem applySpecialGrades_sets (t : List Row) (gs : List (String × String))
    (uid g : String) (hnd : (gs.map Prod.fst).Nodup) (hmem : (uid, g) ∈ gs) :
    ∀ r ∈ applySpecialGrades t (some gs), r.uid = uid → r.grade = g := by
  rw [applySpecialGrades_some]
  induction gs generalizing t with
  | nil => cases hmem
  | cons p gs ih =>
      rw [List.foldl_cons]
      rcases List.mem_cons.1 hmem with heq | hmem2
      · cases heq
        have hk : ∀ q ∈ gs, q.1 ≠ uid := by
          intro q hq hc
          have hq1 : q.1 ∈ gs.map Prod.fst := List.mem_map.2 ⟨q, hq, rfl⟩
          exact (List.nodup_cons.1 hnd).1 (hc ▸ hq1)
        exact foldl_overrides_preserve gs (applyOverrideEntry t uid g) uid g hk
          (applyOverrideEntry_sets t uid g)
      · exact ih (applyOverrideEntry t p.1 p.2) (List.nodup_cons.1 hnd).2 hmem2

/-- After applying a mapping, every key of the mapping is present in the
table. -/
theorem applySpecialGrades_mem (t : List Row) (gs : List (String × String))
    (uid g : String) (hmem : (uid, g) ∈ gs) :
    ∃ r ∈ applySpecialGrades t (some gs), r.uid = uid := by
  rw [applySpecialGrades_some]
  induction gs generalizing t with
  | nil => cases hmem
  | cons p gs ih =>
      rw [List.foldl_cons]
      rcases List.mem_cons.1 hmem with heq | hmem2
      · cases heq
        exact foldl_overrides_mem gs (applyOverrideEntry t uid g) uid
          (applyOverrideEntry_mem t uid g)
      · exact ih (applyOverrideEntry t p.1 p.2) hmem2

/-- An override assignment whose target row already carries the assigned
grade is the identity on the table. -/
theorem applyOverrideEntry_id (t : List Row) (uid g : String)
    (hpres : ∃ r ∈ t, r.uid = uid)
    (hset : ∀ r ∈ t, r.uid = uid → r.grade = g) :
    applyOverrideEntry t uid g = t := by
  rcases hpres with ⟨r0, hr0, hr0u⟩
  have hany : t.any (fun r => r.uid == uid) = true :=
    List.any_eq_true.2 ⟨r0, hr0, by simpa using hr0u⟩
  unfold applyOverrideEntry
  rw [if_pos hany]
  have hid : ∀ r ∈ t, (if r.uid == uid then { r with grade := g } else r) = r := by
    intro r hr
    by_cases h0 : r.uid = uid
    · rw [if_pos (by simpa using h0)]
      rw [← hset r hr h0]
    · rw [if_neg (by simpa using h0)]
  calc t.map (fun r => if r.uid == uid then { r with grade := g } else r)
      = t.map id := List.map_congr_left hid
    _ = t := List.map_id t

/-- A fold that fixes the accumulator on every element fixes it overall. -/
theorem foldl_fixed_of_id (f : β → α → β) (b : β) (l : List α)
    (h : ∀ a ∈ l, f b a = b) : l.foldl f b = b := by
  induction l with
  | nil => rfl
  | cons a l ih =>
      rw [List.foldl_cons, h a (List.mem_cons_self a l)]
      exact ih (fun x hx => h x (List.mem_cons_of_mem a hx))

/-- Claim C6: with a well-formed override mapping (pairwise-distinct keys,
as a YAML mapping guarantees), the grade of an overridden student present in
the table equals the configured override code exactly after application, and
applying the same mapping a second time returns the same table. -/
theorem overrides_exact_and_idempotent (t : List Row) (gs : List (String × String))
    (uid g : String) (hnd : (gs.map Prod.fst).Nodup) (hmem : (uid, g) ∈ gs)
    (hpres : ∃ r ∈ t, r.uid = uid) :
    (∀ r ∈ applySpecialGrades t (some gs), r.uid = uid → r.grade = g) ∧
    applySpecialGrades (applySpecialGrades t (some gs)) (some gs) =
      applySpecialGrades t (some gs) := by
  refine ⟨applySpecialGrades_sets t gs uid g hnd hmem, ?_⟩
  rw [applySpecialGrades_some (applySpecialGrades t (some gs)) gs]
  apply foldl_fixed_of_id
  intro p hp
  apply applyOverrideEntry_id
  · exact applySpecialGrades_mem t gs p.1 p.2 hp
  · exact applySpecialGrades_sets t gs p.1 p.2 hnd hp

/-- Witness for C6: the override mapping setting u1234567 to DA on the
one-row HD table. -/
theorem overrides_exact_and_idempotent_witness :
    (∀ r ∈ applySpecialGrades [hdRow] (some daGrades), r.uid = "u1234567" → r.grade = "DA") ∧
    applySpecialGrades (applySpecialGrades [hdRow] (some daGrades)) (some daGrades) =
      applySpecialGrades [hdRow] (some daGrades) :=
  overrides_exact_and_idempotent [hdRow] daGrades "u1234567" "DA"
    (by decide) (by decide) (by decide)

/-! ### C7: the interim substitution. -/

/-- Claim C7: the interim substitution keeps the row count, overwrites the
mark cell with the grade string on exactly the rows whose grade is an
interim code, and changes nothing else: positionally, a row whose grade is
in the interim set becomes the same row with its mark cell replaced by the
grade string, and any other row is returned unchanged. -/
theorem interimSubstitute_frame (t : List Row) (i : Nat) (r : Row)
    (h : t[i]? = some r) :
    (interimSubstitute t).length = t.length ∧
    (interimSubstitute t)[i]? =
      some (if interim_codes.contains r.grade
            then { r with mark := MarkVal.str r.grade } else r) := by
  constructor
  · simp [interimSubstitute]
  · simp [interimSubstitute, List.getElem?_map, h]

/-- Witness for C7: the substitution on the one-row PX table rewrites the
mark cell of the PX row. -/
theorem interimSubstitute_frame_witness :
    (interimSubstitute [pxRow]).length = [pxRow].length ∧
    (interimSubstitute [pxRow])[0]? =
      some (if interim_codes.contains pxRow.grade
            then { pxRow with mark := MarkVal.str pxRow.grade } else pxRow) :=
  interimSubstitute_frame [pxRow] 0 pxRow rfl

/-! ### C8: the grade-distribution report. -/

/-- The labels of the distribution report are exactly the labels of the
fixed ordered list that occur in the subset, in that fixed order. -/
theorem value_counts_labels (df : List Row) :
    (value_counts_report df).map (fun e => e.1) =
      gradeOrderList.filter (fun g => decide (countGrade df g ≠ 0)) := by
  unfold value_counts_report
  induction gradeOrderList with
  | nil => rfl
  | cons g L ih =>
      by_cases h : countGrade df g = 0 <;>
        simp [List.filterMap_cons, List.filter_cons, h, ih]

/-- Claim C8: every printed entry of the distribution report carries the
count of its grade in the subset (necessarily positive) and the percentage
count / subset size × 100 rounded to 2 decimal places; the labels appear in
the fixed order HD, D, CR, P, PX, N, NCN, DA, RP, KU, WD, WN, and a label
with no occurrences is omitted. -/
theorem value_counts_spec (df : List Row) (g : String) (c : Nat) (p : ℚ)
    (hmem : (g, c, p) ∈ value_counts_report df) :
    (c = countGrade df g ∧ 0 < c ∧
      p = round2 ((c : ℚ) * 100 / (df.length : ℚ))) ∧
    (value_counts_report df).map (fun e => e.1) =
      gradeOrderList.filter (fun g2 => decide (countGrade df g2 ≠ 0)) := by
  refine ⟨?_, value_counts_labels df⟩
  unfold value_counts_report at hmem
  rcases List.mem_filterMap.1 hmem with ⟨g0, hg0, hf⟩
  by_cases h : countGrade df g0 = 0
  · rw [if_pos h] at hf
    cases hf
  · rw [if_neg h] at hf
    have hg : g0 = g := congrArg Prod.fst (Option.some.inj hf)
    have hc : countGrade df g0 = c :=
      congrArg (fun e => e.2.1) (Option.some.inj hf)
    have hp : round2 ((countGrade df g0 : ℚ) * 100 / (df.length : ℚ)) = p :=
      congrArg (fun e => e.2.2) (Option.some.inj hf)
    subst hg
    refine ⟨hc.symm, ?_, ?_⟩
    · omega
    · rw [← hp, hc]

/-- Witness for C8: the report over the one-row HD table contains the entry
for HD with count 1 and the rounded percentage of 100. -/
theorem value_counts_spec_witness :
    ((countGrade [hdRow] "HD" = countGrade [hdRow] "HD" ∧
      0 < countGrade [hdRow] "HD" ∧
      round2 ((countGrade [hdRow] "HD" : ℚ) * 100 / (([hdRow] : List Row).length : ℚ)) =
        round2 ((countGrade [hdRow] "HD" : ℚ) * 100 / (([hdRow] : List Row).length : ℚ))) ∧
    (value_counts_report [hdRow]).map (fun e => e.1) =
      gradeOrderList.filter (fun g2 => decide (countGrade [hdRow] g2 ≠ 0))) :=
  value_counts_spec [hdRow] "HD" (countGrade [hdRow] "HD")
    (round2 ((countGrade [hdRow] "HD" : ℚ) * 100 / (([hdRow] : List Row).length : ℚ)))
    (List.Mem.head _)

/-! ### C1: position of the cohort reporter relative to the withdrawal
filter. -/

/-- The Jane Doe row carrying the override grade WD. -/
def wdRow : Row := { janeRow with grade := "WD" }

/-- Every row surviving the withdrawal filter has a grade that is neither
WD nor WN. -/
theorem mem_withdrawFilter (t : List Row) (r : Row) (h : r ∈ withdrawFilter t) :
    r.grade ≠ "WD" ∧ r.grade ≠ "WN" := by
  rw [withdrawFilter_eq_filter] at h
  have h2 := (List.mem_filter.1 h).2
  constructor <;> intro hc <;> simp [hc] at h2

/-- Inversion for the pipeline prefix: a successful run reaches the stats
block with the withdrawal filter already applied. -/
theorem tableAtStats_inv (flag : Bool) (config : List (String × CourseConfig))
    (t0 t : List Row) (h : tableAtStats flag config t0 = some t) :
    ∃ t3, t = withdrawFilter t3 := by
  unfold tableAtStats at h
  cases h1 : deriveGrades flag t0 with
  | none => simp only [h1] at h; cases h
  | some t1 =>
      simp only [h1] at h
      cases h2 : applyAllOverrides config (uniqueCourses t0) t1 with
      | none => simp only [h2] at h; cases h
      | some t2 =>
          simp only [h2] at h
          cases h3 : astypeIntCols t2 with
          | none => simp only [h3] at h; cases h
          | some t3 =>
              simp only [h3] at h
              exact ⟨t3, (Option.some.inj h).symm⟩

/-- Counterexample to claim C1 as stated: on a one-row table whose single
student is overridden to WD, the row is present after override application,
yet the stats block runs on the empty table — the WD row is not in any
subset the reporter sees, because the withdrawal filter (script lines
152-153) runs before the stats block (script lines 156-161). -/
theorem stats_after_filter_counterexample :
    deriveGrades false [janeRow] = some [hdRow] ∧
    applyAllOverrides wdConfig (uniqueCourses [janeRow]) [hdRow] = some [wdRow] ∧
    tableAtStats false wdConfig [janeRow] = some [] ∧
    scriptReports false wdConfig [janeRow] =
      some [print_stats_data "All Cohorts" [], print_stats_data "COMP1100" []] ∧
    ¬ (∀ t, tableAtStats false wdConfig [janeRow] = some t → wdRow ∈ t) := by
  refine ⟨by decide, by decide, by decide, by decide, ?_⟩
  intro hall
  have h0 := hall [] (by decide)
  simp at h0

/-- Claim C1 (amended): the cohort reporter runs after override application
and after the withdrawal filter, so no subset it reports on (the full table
or any per-course subset) contains a row graded WD or WN. -/
theorem stats_exclude_withdrawn (flag : Bool) (config : List (String × CourseConfig))
    (t0 t : List Row) (h : tableAtStats flag config t0 = some t) :
    (∀ r ∈ t, r.grade ≠ "WD" ∧ r.grade ≠ "WN") ∧
    scriptReports flag config t0 =
      some (print_stats_data "All Cohorts" t ::
        (uniqueCourses t0).map (fun c => print_stats_data c (courseSubset t c))) ∧
    (∀ c, ∀ r ∈ courseSubset t c, r.grade ≠ "WD" ∧ r.grade ≠ "WN") := by
  obtain ⟨t3, rfl⟩ := tableAtStats_inv flag config t0 t h
  refine ⟨fun r hr => mem_withdrawFilter t3 r hr, ?_, ?_⟩
  · unfold scriptReports
    rw [h]
  · intro c r hr
    exact mem_withdrawFilter t3 r (List.mem_of_mem_filter hr)

/-- Witness for C1 (amended): the pipeline on the WD-overridden one-row
table reaches the stats block with the empty table. -/
theorem stats_exclude_withdrawn_witness :
    (∀ r ∈ ([] : List Row), r.grade ≠ "WD" ∧ r.grade ≠ "WN") ∧
    scriptReports false wdConfig [janeRow] =
      some (print_stats_data "All Cohorts" [] ::
        (uniqueCourses [janeRow]).map
          (fun c => print_stats_data c (courseSubset [] c))) ∧
    (∀ c, ∀ r ∈ courseSubset ([] : List Row) c, r.grade ≠ "WD" ∧ r.grade ≠ "WN") :=
  stats_exclude_withdrawn false wdConfig [janeRow] [] (by decide)

/-! ### C5: the end-to-end export of the example row. -/

/-- Counterexample to claim C5 as stated: the run on the Jane Doe row writes
exactly one file, whose data row carries the bare student number 1234567 in
the uid column, so the claimed row starting with u1234567 appears nowhere in
the file. -/
theorem export_jane_counterexample :
    scriptExports false plainConfig [janeRow] =
      some [("2940-COMP-1100-4321.csv",
        [["uid", "mark", "grade", "firstname", "surname", "course"],
         ["1234567", "82", "HD", "Jane", "Doe", "COMP1100"]])] ∧
    ¬ ["u1234567", "82", "HD", "Jane", "Doe", "COMP1100"] ∈
        [["uid", "mark", "grade", "firstname", "surname", "course"],
         ["1234567", "82", "HD", "Jane", "Doe", "COMP1100"]] := by
  constructor <;> decide

/-- Claim C5 (amended): on the Jane Doe input row with the zero flag off and
no override, the derived grade is HD, the exported mark stays 82 (HD is not
an interim code), and the row appears in the file named
term-COMP-1100-class.csv (term 2940 and class 4321 here) under the header
uid, mark, grade, firstname, surname, course — but the uid column carries
the bare student number 1234567, not u1234567, since `to_csv` writes the
Student Number column and drops the uid index. -/
theorem export_jane_exact :
    generate_grade false 82 = "HD" ∧
    interimSubstitute [hdRow] = [hdRow] ∧
    scriptExports false plainConfig [janeRow] =
      some [("2940-COMP-1100-4321.csv",
        [["uid", "mark", "grade", "firstname", "surname", "course"],
         ["1234567", "82", "HD", "Jane", "Doe", "COMP1100"]])] := by
  refine ⟨by decide, by decide, by decide⟩
